import Mathlib

/-!
Verification of the gh-user-status extension (src/main.go).

The Go program is shallowly embedded: pure computations (query and
mutation construction, emoji wrapping, routing on the login string)
become Lean functions; the `gh` subprocess and the interactive
confirmation are modelled as oracle parameters; `encoding/json`
unmarshalling into the specific Go target types used by the program is
embedded as executable decoders over an inductive JSON value type.
-/

set_option maxHeartbeats 1000000

/-- A JSON value, the parse result of subprocess stdout.  `obj` keeps the
fields in document order, which matters for Go decoding semantics
(later duplicate keys overwrite earlier ones). -/
inductive Json where
  | null : Json
  | bool : Bool → Json
  | num : Int → Json
  | str : String → Json
  | arr : List Json → Json
  | obj : List (String × Json) → Json

/-- `status` struct from main.go (field order preserved). -/
structure Status where
  indicatesLimitedAvailability : Bool
  message : String
  emoji : String
deriving DecidableEq, Repr

/-- The zero value of the Go `status` struct. -/
def zeroStatus : Status := ⟨false, "", ""⟩

/-- The anonymous `struct { Login string }` nested in `memberStatus`. -/
structure UserRef where
  login : String
deriving DecidableEq, Repr

/-- `memberStatus` struct from main.go. -/
structure MemberStatus where
  indicatesLimitedAvailability : Bool
  message : String
  emoji : String
  user : UserRef
deriving DecidableEq, Repr

/-- The zero value of the Go `memberStatus` struct. -/
def zeroMember : MemberStatus := ⟨false, "", "", ⟨""⟩⟩

/-! ### Go string helpers (strings.Contains, strings.Split) -/

/-- Boolean prefix test on character lists. -/
def listPrefixOfB : List Char → List Char → Bool
  | [], _ => true
  | _ :: _, [] => false
  | a :: as, b :: bs => a == b && listPrefixOfB as bs

/-- Boolean substring test on character lists (pattern occurs somewhere). -/
def listSubB (pat : List Char) : List Char → Bool
  | [] => listPrefixOfB pat []
  | c :: rest => listPrefixOfB pat (c :: rest) || listSubB pat rest

/-- `strings.Contains s pat` from the Go standard library. -/
def strContains (s pat : String) : Bool := listSubB pat.data s.data

/-- `strings.Contains s c` for a single-character separator, as used by
`runGet` (`strings.Contains(opts.Login, "/")`). -/
def goContains (s : String) (c : Char) : Bool := s.data.contains c

/-- `strings.Split` on a single-character separator, over char lists.
`strings.Split("", sep) = [""]`; separators at the edges yield empty
segments. -/
def splitChar (c : Char) : List Char → List (List Char)
  | [] => [[]]
  | x :: xs =>
    if x = c then [] :: splitChar c xs
    else
      match splitChar c xs with
      | [] => [[x]]
      | y :: ys => (x :: y) :: ys

/-- `strings.Split(s, c)` for a one-character separator. -/
def goSplit (s : String) (c : Char) : List String :=
  (splitChar c s.data).map (fun l => String.mk l)

/-! ### Go map semantics (assignment overwrites, exact-key lookup) -/

/-- Store a key in a Go map modelled as an association list: an existing
binding for the key is replaced, otherwise the binding is appended. -/
def mapSet {α : Type} : List (String × α) → String → α → List (String × α)
  | [], k, v => [(k, v)]
  | (k2, v2) :: rest, k, v =>
    if k2 = k then (k, v) :: rest else (k2, v2) :: mapSet rest k v

/-- Exact-key Go map lookup (`m[k]` together with the `ok` flag). -/
def lookupGo {α : Type} : List (String × α) → String → Option α
  | [], _ => none
  | (k2, v) :: rest, k => if k2 = k then some v else lookupGo rest k

/-! ### encoding/json decoding into the Go target types

Go matches JSON object keys to struct fields case-insensitively, decodes
`null` into a struct/string/bool target as a no-op (the target keeps its
current value), and errors on a JSON value of the wrong type. -/

/-- ASCII lower-casing of one character. -/
def lowerChar (c : Char) : Char :=
  if 65 ≤ c.toNat ∧ c.toNat ≤ 90 then Char.ofNat (c.toNat + 32) else c

/-- Case-insensitive key-to-field match used by `encoding/json` (the Go
field names in play are ASCII). -/
def keyMatch (k fieldName : String) : Bool :=
  k.data.map lowerChar == fieldName.data.map lowerChar

/-- Decode a JSON value into a string field holding `cur`. -/
def decodeStringV : Json → String → Except Unit String
  | .null, cur => .ok cur
  | .str s, _ => .ok s
  | _, _ => .error ()

/-- Decode a JSON value into a bool field holding `cur`. -/
def decodeBoolV : Json → Bool → Except Unit Bool
  | .null, cur => .ok cur
  | .bool b, _ => .ok b
  | _, _ => .error ()

/-- Decode the fields of a JSON object into a `status` struct, in document
order (duplicate keys decode sequentially into the same field). -/
def statusFields : List (String × Json) → Status → Except Unit Status
  | [], st => .ok st
  | (k, v) :: rest, st =>
    if keyMatch k "message" then
      match decodeStringV v st.message with
      | .error e => .error e
      | .ok s => statusFields rest { st with message := s }
    else if keyMatch k "emoji" then
      match decodeStringV v st.emoji with
      | .error e => .error e
      | .ok s => statusFields rest { st with emoji := s }
    else if keyMatch k "indicatesLimitedAvailability" then
      match decodeBoolV v st.indicatesLimitedAvailability with
      | .error e => .error e
      | .ok b => statusFields rest { st with indicatesLimitedAvailability := b }
    else statusFields rest st

/-- Decode a JSON value into a `status` target holding `cur`. -/
def decodeStatusV : Json → Status → Except Unit Status
  | .null, cur => .ok cur
  | .obj fs, cur => statusFields fs cur
  | _, _ => .error ()

/-- Decode the fields of a JSON object into a single-field wrapper struct
whose only (case-insensitively matched) field is `fieldName`; the wrapper
is represented by its field's value. -/
def wrapFields {α : Type} (fieldName : String) (decV : Json → α → Except Unit α) :
    List (String × Json) → α → Except Unit α
  | [], a => .ok a
  | (k, v) :: rest, a =>
    if keyMatch k fieldName then
      match decV v a with
      | .error e => .error e
      | .ok a2 => wrapFields fieldName decV rest a2
    else wrapFields fieldName decV rest a

/-- Decode a JSON value into a single-field wrapper struct target. -/
def decodeWrapV {α : Type} (fieldName : String) (decV : Json → α → Except Unit α) :
    Json → α → Except Unit α
  | .null, a => .ok a
  | .obj fs, a => wrapFields fieldName decV fs a
  | _, _ => .error ()

/-- Decoder for the `runSet` response type
`struct { Data struct { ChangeUserStatus struct { Status status } } }`;
`none` models bytes that are not valid JSON. -/
def decodeSetResponse : Option Json → Except Unit Status
  | none => .error ()
  | some j =>
    decodeWrapV "data"
      (decodeWrapV "changeUserStatus"
        (decodeWrapV "status" decodeStatusV)) j zeroStatus

/-- Decode the fields of a JSON object into the nested `User` struct. -/
def userFields : List (String × Json) → UserRef → Except Unit UserRef
  | [], u => .ok u
  | (k, v) :: rest, u =>
    if keyMatch k "login" then
      match decodeStringV v u.login with
      | .error e => .error e
      | .ok s => userFields rest { u with login := s }
    else userFields rest u

/-- Decode a JSON value into a `User` target holding `cur`. -/
def decodeUserV : Json → UserRef → Except Unit UserRef
  | .null, cur => .ok cur
  | .obj fs, cur => userFields fs cur
  | _, _ => .error ()

/-- Decode the fields of a JSON object into a `memberStatus` struct. -/
def memberFields : List (String × Json) → MemberStatus → Except Unit MemberStatus
  | [], m => .ok m
  | (k, v) :: rest, m =>
    if keyMatch k "message" then
      match decodeStringV v m.message with
      | .error e => .error e
      | .ok s => memberFields rest { m with message := s }
    else if keyMatch k "emoji" then
      match decodeStringV v m.emoji with
      | .error e => .error e
      | .ok s => memberFields rest { m with emoji := s }
    else if keyMatch k "indicatesLimitedAvailability" then
      match decodeBoolV v m.indicatesLimitedAvailability with
      | .error e => .error e
      | .ok b => memberFields rest { m with indicatesLimitedAvailability := b }
    else if keyMatch k "user" then
      match decodeUserV v m.user with
      | .error e => .error e
      | .ok u => memberFields rest { m with user := u }
    else memberFields rest m

/-- Decode a JSON value into a `memberStatus` target holding `cur`. -/
def decodeMemberV : Json → MemberStatus → Except Unit MemberStatus
  | .null, cur => .ok cur
  | .obj fs, cur => memberFields fs cur
  | _, _ => .error ()

/-- Decode a JSON value into a `[]memberStatus` slice: `null` sets the
slice to nil, an array decodes each element into a fresh zero value. -/
def decodeNodesV : Json → List MemberStatus → Except Unit (List MemberStatus)
  | .null, _ => .ok []
  | .arr xs, _ => xs.mapM (fun v => decodeMemberV v zeroMember)
  | _, _ => .error ()

/-- Decoder for the `apiTeam` response type (nested single-field wrapper
structs down to `Nodes []memberStatus`). -/
def decodeTeamResponse : Option Json → Except Unit (List MemberStatus)
  | none => .error ()
  | some j =>
    decodeWrapV "data"
      (decodeWrapV "organization"
        (decodeWrapV "team"
          (decodeWrapV "memberStatuses"
            (decodeWrapV "nodes" decodeNodesV)))) j []

/-- Decode the entries of a JSON object into a Go map: each value is
decoded into a fresh zero element, then stored (overwriting duplicates). -/
def mapFieldsWith {α : Type} (decElem : Json → Except Unit α) :
    List (String × Json) → List (String × α) → Except Unit (List (String × α))
  | [], m => .ok m
  | (k, v) :: rest, m =>
    match decElem v with
    | .error e => .error e
    | .ok a => mapFieldsWith decElem rest (mapSet m k a)

/-- Decode a JSON value into a Go `map[string]α`: `null` gives the nil map
(which looks up as empty), an object decodes every entry, anything else
errors. -/
def decodeMapWith {α : Type} (decElem : Json → Except Unit α) :
    Json → Except Unit (List (String × α))
  | .null => .ok []
  | .obj fs => mapFieldsWith decElem fs []
  | _ => .error ()

/-- Innermost map of `apiStatus`: `map[string]status`. -/
def decodeMap1 : Json → Except Unit (List (String × Status)) :=
  decodeMapWith (fun v => decodeStatusV v zeroStatus)

/-- Middle map of `apiStatus`: `map[string]map[string]status`. -/
def decodeMap2 : Json → Except Unit (List (String × List (String × Status))) :=
  decodeMapWith decodeMap1

/-- Outer map of `apiStatus`: `map[string]map[string]map[string]status`. -/
def decodeMap3 : Json → Except Unit (List (String × List (String × List (String × Status)))) :=
  decodeMapWith decodeMap2

/-! ### Query and mutation construction -/

/-- Result of one `gh` invocation: `ok` models a nil error from `cmd.Run`,
`out` the captured stdout parsed as JSON (`none` when the bytes are not
valid JSON), `stderr` the captured stderr text. -/
structure GhCall where
  ok : Bool
  out : Option Json
  stderr : String

/-- `setOptions` from main.go (`Expiry` is a `time.Duration`, i.e. an
integer nanosecond count). -/
structure SetOptions where
  message : String
  limited : Bool
  expiry : Int
  emoji : String
  orgName : String

/-- The GraphQL mutation text of `runSet` (raw Go string, tabs included). -/
def setMutation : String :=
  "mutation($emoji: String!, $message: String!, $limited: Boolean!, $expiry: DateTime) \x7b\n\t\tchangeUserStatus(input: \x7bemoji: $emoji, message: $message, limitedAvailability: $limited, expiresAt: $expiry\x7d) \x7b\n\t\t\tstatus \x7b\n\t\t\t\tmessage\n\t\t\t\temoji\n\t\t\t\x7d\n\t\t\x7d\n\t\x7d"

/-- The boolean literal sent as the mutation's `limited` variable. -/
def limitedField (limited : Bool) : String := if limited then "true" else "false"

/-- The timestamp layout passed to `time.Time.Format` by `runSet`. -/
def timeLayout : String := "2006-01-02T15:04:05-0700"

/-- The `expiry` variable of the mutation: "null" by default, overwritten
with `time.Now().Add(d).Format(timeLayout)` when the duration is positive.
`fmt` abstracts the Go standard library formatter (layout, time ↦ text);
times are integer nanoseconds since the epoch and `Add` is addition. -/
def expiryField (fmt : String → Int → String) (now d : Int) : String :=
  if d > 0 then fmt timeLayout (now + d) else "null"

/-- The `emoji` variable of the mutation: empty by default, overwritten
with the alias wrapped in colons when the alias is non-empty. -/
def setEmojiField (a : String) : String :=
  if a ≠ "" then ":" ++ a ++ ":" else ""

/-- `cmdArgs` as assembled by `runSet`. -/
def setCmdArgs (opts : SetOptions) (fmt : String → Int → String) (now : Int) : List String :=
  ["api", "graphql",
   "-f", "query=" ++ setMutation,
   "-f", "message=" ++ opts.message,
   "-f", "emoji=" ++ setEmojiField opts.emoji,
   "-F", "limited=" ++ limitedField opts.limited,
   "-F", "expiry=" ++ expiryField fmt now opts.expiry]

/-- The stderr substring that marks a missing-scope failure. -/
def scopeMarker : String := "one of the following scopes: [\x27user\x27]"

/-- Arguments of the interactive re-authentication call. -/
def refreshCmdArgs : List String := ["auth", "refresh", "-s", "user"]

/-- Errors surfaced by `runSet`. -/
inductive SetError where
  | ghFailed (stderr : String) : SetError
  | promptFailed : SetError
  | refreshFailed : SetError
  | decodeFailed : SetError
  | verifyFailed : SetError
deriving DecidableEq, Repr

/-- Successful outcomes of `runSet`: the deliberate no-change abort after
a declined scope recovery, or a verified status write. -/
inductive SetOutcome where
  | declined : SetOutcome
  | statusSet : SetOutcome
deriving DecidableEq, Repr

/-- Observable behaviour of one `runSet` run: the argument vectors of the
`api graphql` invocations in order, the argument vectors passed to the
interactive `gh` mode, and the returned value. -/
structure SetResult where
  ghArgs : List (List String)
  refreshArgs : List (List String)
  result : Except SetError SetOutcome
deriving Repr

/-- Tail of `runSet` after a successful invocation: decode the echoed
status and verify the echoed emoji against the one sent. -/
def finishSet (sentEmoji : String) (out : Option Json) : Except SetError SetOutcome :=
  match decodeSetResponse out with
  | .error _ => .error .decodeFailed
  | .ok st =>
    if st.emoji ≠ sentEmoji then .error .verifyFailed else .ok .statusSet

/-- `runSet` from main.go.  `gh` is the subprocess oracle (call index,
argument vector ↦ result), `confirm` the result of the interactive
yes/no prompt, `refresh` the success of the interactive `gh auth refresh`
invocation. -/
def runSet (opts : SetOptions) (fmt : String → Int → String) (now : Int)
    (gh : Nat → List String → GhCall) (confirm : Except Unit Bool)
    (refresh : List String → Bool) : SetResult :=
  let emoji := setEmojiField opts.emoji
  let args := setCmdArgs opts fmt now
  let c1 := gh 0 args
  if c1.ok then
    ⟨[args], [], finishSet emoji c1.out⟩
  else if strContains c1.stderr scopeMarker = false then
    ⟨[args], [], .error (.ghFailed c1.stderr)⟩
  else
    match confirm with
    | .error _ => ⟨[args], [], .error .promptFailed⟩
    | .ok false => ⟨[args], [], .ok .declined⟩
    | .ok true =>
      if refresh refreshCmdArgs = false then
        ⟨[args], [refreshCmdArgs], .error .refreshFailed⟩
      else
        let c2 := gh 1 args
        if c2.ok then ⟨[args, args], [refreshCmdArgs], finishSet emoji c2.out⟩
        else ⟨[args, args], [refreshCmdArgs], .error (.ghFailed c2.stderr)⟩

/-! ### The get path -/

/-- Which lookup `runGet` dispatches to. -/
inductive Route where
  | team : Route
  | user : Route
deriving DecidableEq, Repr

/-- The dispatch of `runGet`: logins containing "/" go to the team-roster
lookup, all others to the single-user lookup. -/
def runGetRoute (login : String) : Route :=
  if goContains login '/' then .team else .user

/-- `runGetTeam`'s extraction of the organization login and team slug:
the first two segments of the "/"-split login. -/
def runGetTeamParse (login : String) : String × String :=
  let arr := goSplit login '/'
  (arr.getD 0 "", arr.getD 1 "")

/-- Errors surfaced by `apiStatus` and `apiTeam`. -/
inductive ApiError where
  | ghFailed (stderr : String) : ApiError
  | unmarshalFailed : ApiError
  | missingStatusKey : ApiError
deriving DecidableEq, Repr

/-- The pieces of the single-user query around the login filter. -/
def uqA : String := "query \x7b user(login:\""

/-- Remainder of the single-user query after the login filter value. -/
def uqB : String := "\") \x7b status \x7b indicatesLimitedAvailability message emoji \x7d\x7d\x7d"

/-- The login-free query used when `login` is empty. -/
def viewerQueryShape : String :=
  "query \x7bviewer \x7b status \x7b indicatesLimitedAvailability message emoji \x7d\x7d\x7d"

/-- The GraphQL query built by `apiStatus`. -/
def apiStatusQuery (login : String) : String :=
  if login = "" then viewerQueryShape else uqA ++ login ++ uqB

/-- The top-level response key `apiStatus` decodes under. -/
def apiStatusKey (login : String) : String :=
  if login = "" then "viewer" else "user"

/-- Decoding stage of `apiStatus`: unmarshal the response into the nested
map type, then index `resp["data"][key]["status"]`. -/
def apiStatusDecode (out : Option Json) (key : String) : Except ApiError Status :=
  match out with
  | none => .error .unmarshalFailed
  | some j =>
    match decodeMap3 j with
    | .error _ => .error .unmarshalFailed
    | .ok m =>
      match lookupGo m "data" with
      | none => .error .missingStatusKey
      | some m2 =>
        match lookupGo m2 key with
        | none => .error .missingStatusKey
        | some m3 =>
          match lookupGo m3 "status" with
          | none => .error .missingStatusKey
          | some s => .ok s

/-- `apiStatus` from main.go over a subprocess oracle. -/
def apiStatus (login : String) (gh : List String → GhCall) : Except ApiError Status :=
  let args := ["api", "graphql", "-f", "query=" ++ apiStatusQuery login]
  let c := gh args
  if c.ok = false then .error (.ghFailed c.stderr)
  else apiStatusDecode c.out (apiStatusKey login)

/-- The `"{owner}"` placeholder substitution applied by `apiTeam` to an
empty organization login. -/
def apiTeamLogin (login : String) : String :=
  if login = "" then "\x7bowner\x7d" else login

/-- Piece of the team query before the organization login. -/
def tqA : String := "query \x7b\n      organization(login:\""

/-- Piece of the team query between the login and the slug. -/
def tqB : String := "\") \x7b\n        team(slug:\""

/-- Piece of the team query after the slug (contains the fixed page size). -/
def tqC : String :=
  "\") \x7b\n          memberStatuses(first: 100) \x7b\n            nodes \x7b indicatesLimitedAvailability message emoji user \x7b login \x7d \x7d\n          \x7d\n        \x7d\n      \x7d\n    \x7d"

/-- The GraphQL query built by `apiTeam` (after placeholder substitution). -/
def apiTeamQuery (login slug : String) : String :=
  tqA ++ login ++ tqB ++ slug ++ tqC

/-- Observable behaviour of one `apiTeam` run: the argument vectors of the
subprocess invocations, and the returned value. -/
structure TeamResult where
  calls : List (List String)
  result : Except ApiError (List MemberStatus)
deriving Repr

/-- Outcome branch of `apiTeam` after its single invocation. -/
def apiTeamOutcome (c : GhCall) : Except ApiError (List MemberStatus) :=
  if c.ok = false then .error (.ghFailed c.stderr)
  else
    match decodeTeamResponse c.out with
    | .error _ => .error .unmarshalFailed
    | .ok nodes => .ok nodes

/-- `apiTeam` from main.go over a subprocess oracle: one query at page
size 100, one invocation, no cursor following. -/
def apiTeam (login slug : String) (gh : List String → GhCall) : TeamResult :=
  let query := apiTeamQuery (apiTeamLogin login) slug
  let args := ["api", "graphql", "-f", "query=" ++ query]
  ⟨[args], apiTeamOutcome (gh args)⟩

/-! ### Structural characterization of the apiStatus decode -/

/-- Whether an `Except` result is a success. -/
def isOkE {ε α : Type} : Except ε α → Bool
  | .ok _ => true
  | .error _ => false

/-- Forget the error of an `Except` result. -/
def exOpt {ε α : Type} : Except ε α → Option α
  | .ok a => some a
  | .error _ => none

/-- Whether `apiStatus` ended in a decode error (unmarshal failure or
missing nested key), as opposed to success or a subprocess failure. -/
def isDecodeErr : Except ApiError Status → Bool
  | .error .unmarshalFailed => true
  | .error .missingStatusKey => true
  | _ => false

/-- JSON values decodable into a Go string field. -/
def jsonStrOrNull : Json → Bool
  | .null => true
  | .str _ => true
  | _ => false

/-- JSON values decodable into a Go bool field. -/
def jsonBoolOrNull : Json → Bool
  | .null => true
  | .bool _ => true
  | _ => false

/-- Whether one object entry is decodable into its matching `status`
field (entries matching no field are always fine). -/
def statusFieldOk (k : String) (v : Json) : Bool :=
  if keyMatch k "message" then jsonStrOrNull v
  else if keyMatch k "emoji" then jsonStrOrNull v
  else if keyMatch k "indicatesLimitedAvailability" then jsonBoolOrNull v
  else true

/-- JSON values decodable into a `status` struct. -/
def statusJsonOk : Json → Bool
  | .null => true
  | .obj fs => fs.all (fun kv => statusFieldOk kv.1 kv.2)
  | _ => false

/-- JSON values decodable into a Go map whose elements satisfy `elemOk`. -/
def mapJsonOk (elemOk : Json → Bool) : Json → Bool
  | .null => true
  | .obj fs => fs.all (fun kv => elemOk kv.2)
  | _ => false

/-- Decodability into `map[string]status`. -/
def map1Ok : Json → Bool := mapJsonOk statusJsonOk

/-- Decodability into `map[string]map[string]status`. -/
def map2Ok : Json → Bool := mapJsonOk map1Ok

/-- Decodability into the full `apiStatus` envelope type. -/
def map3Ok : Json → Bool := mapJsonOk map2Ok

/-- The value of the last occurrence of a key in a JSON object's field
list (Go map decoding keeps the last duplicate). -/
def lastVal : List (String × Json) → String → Option Json
  | [], _ => none
  | (k2, v) :: rest, k =>
    match lastVal rest k with
    | some w => some w
    | none => if k2 = k then some v else none

/-- `lastVal` lifted to a JSON value (`none` off objects). -/
def objLast : Json → String → Option Json
  | .obj fs, k => lastVal fs k
  | _, _ => none

/-- Whether a JSON object's field list binds a key at all. -/
def hasKeyJ : List (String × Json) → String → Bool
  | [], _ => false
  | (k2, _) :: rest, k => if k2 = k then true else hasKeyJ rest k

/-- Structural presence of the nested path `data -> key -> status` in a
JSON response (following last duplicates, as the decoded maps do). -/
def statusPathPresent (j : Json) (key : String) : Bool :=
  match objLast j "data" with
  | none => false
  | some d =>
    match objLast d key with
    | none => false
    | some t =>
      match t with
      | .obj fs => hasKeyJ fs "status"
      | _ => false

/-! ### Concrete fixtures used by witnesses and counterexamples -/

/-- A set request: message "working", emoji alias "rocket", no expiry. -/
def opts1 : SetOptions := ⟨"working", false, 0, "rocket", ""⟩

/-- A trivial stand-in for the Go time formatter. -/
def fmt1 : String → Int → String := fun _ _ => ""

/-- Oracle whose first invocation fails with the missing-scope stderr and
whose retry fails with an unrelated error. -/
def ghScope : Nat → List String → GhCall := fun n _ =>
  if n = 0 then
    ⟨false, none, "gh: Resource not accessible: requires one of the following scopes: [\x27user\x27]"⟩
  else ⟨false, none, "gh: second failure"⟩

/-- Oracle returning a successful mutation response echoing ":rocket:". -/
def ghEcho : Nat → List String → GhCall := fun _ _ =>
  ⟨true,
   some (.obj [("data", .obj [("changeUserStatus", .obj [("status",
     .obj [("message", .str "hi"), ("emoji", .str ":rocket:")])])])]),
   ""⟩

/-- Oracle returning a successful mutation response echoing a different
emoji (":tada:") than the one sent. -/
def ghEchoWrong : Nat → List String → GhCall := fun _ _ =>
  ⟨true,
   some (.obj [("data", .obj [("changeUserStatus", .obj [("status",
     .obj [("message", .str "hi"), ("emoji", .str ":tada:")])])])]),
   ""⟩

/-- A response whose `data -> user -> status` path is present but whose
status value is a JSON string, which the nested-map decode rejects. -/
def illTypedStatusJson : Json :=
  .obj [("data", .obj [("user", .obj [("status", .str "hi")])])]

/-- Oracle returning `illTypedStatusJson` successfully. -/
def ghIll : List String → GhCall := fun _ => ⟨true, some illTypedStatusJson, ""⟩

/-- A well-formed single-user status response. -/
def userOkJson : Json :=
  .obj [("data", .obj [("user", .obj [("status",
    .obj [("indicatesLimitedAvailability", .bool true),
          ("message", .str "focus"), ("emoji", .str ":zap:")])])])]

/-- Oracle returning a well-formed single-user status response. -/
def ghUserOk : List String → GhCall := fun _ => ⟨true, some userOkJson, ""⟩

/-- One team-member status node as JSON. -/
def memberJson : Json :=
  .obj [("indicatesLimitedAvailability", .bool false), ("message", .str "m"),
        ("emoji", .str ":x:"), ("user", .obj [("login", .str "u")])]

/-- A team response carrying exactly 100 member nodes. -/
def team100Json : Json :=
  .obj [("data", .obj [("organization", .obj [("team", .obj [("memberStatuses",
    .obj [("nodes", .arr (List.replicate 100 memberJson))])])])])]

/-- Oracle returning the 100-member team response. -/
def gh100 : List String → GhCall := fun _ => ⟨true, some team100Json, ""⟩

/-! ### Helper lemmas -/

theorem mk_data (s : String) : String.mk s.data = s := rfl

theorem splitChar_append (c : Char) (l r : List Char) (h : c ∉ l) :
    splitChar c (l ++ c :: r) = l :: splitChar c r := by
  induction l with
  | nil => simp [splitChar]
  | cons x xs ih =>
    have hx : ¬ x = c := fun hxc => h (hxc ▸ List.mem_cons_self x xs)
    have hxs : c ∉ xs := fun hm => h (List.mem_cons_of_mem _ hm)
    rw [List.cons_append]
    simp only [splitChar, if_neg hx]
    rw [ih hxs]

theorem lookupGo_mapSet {α : Type} (m : List (String × α)) (k k2 : String) (v : α) :
    lookupGo (mapSet m k v) k2 = if k = k2 then some v else lookupGo m k2 := by
  induction m with
  | nil => simp [mapSet, lookupGo]
  | cons kv rest ih =>
    obtain ⟨k3, v3⟩ := kv
    by_cases h3 : k3 = k
    · subst h3
      simp only [mapSet, if_pos rfl, lookupGo]
      by_cases hk : k3 = k2
      · subst hk; simp
      · simp [hk]
    · simp only [mapSet, if_neg h3, lookupGo, ih]
      by_cases hk : k3 = k2
      · subst hk
        have : ¬ k = k3 := fun he => h3 he.symm
        simp [this]
      · simp [hk]

theorem lookupGo_mapFieldsWith {α : Type} (dec : Json → Except Unit α)
    (fs : List (String × Json)) (acc m : List (String × α))
    (h : mapFieldsWith dec fs acc = .ok m) (k : String) :
    lookupGo m k = (match lastVal fs k with
      | some w => exOpt (dec w)
      | none => lookupGo acc k) := by
  induction fs generalizing acc with
  | nil =>
    simp only [mapFieldsWith] at h
    injection h with h
    subst h
    rfl
  | cons kv rest ih =>
    obtain ⟨k2, v⟩ := kv
    simp only [mapFieldsWith] at h
    rcases hd : dec v with e | a
    · rw [hd] at h; cases h
    · rw [hd] at h
      have := ih (mapSet acc k2 a) h
      rw [this]
      simp only [lastVal]
      rcases hrest : lastVal rest k with _ | w
      · simp only [lookupGo_mapSet]
        by_cases hk : k2 = k
        · subst hk; simp [exOpt, hd]
        · have : ¬ k2 = k := hk
          simp [this]
      · rfl

theorem lastVal_mem (fs : List (String × Json)) (k : String) (v : Json)
    (h : lastVal fs k = some v) : (k, v) ∈ fs := by
  induction fs with
  | nil => cases h
  | cons kv rest ih =>
    obtain ⟨k2, v2⟩ := kv
    simp only [lastVal] at h
    rcases hrest : lastVal rest k with _ | w
    · rw [hrest] at h
      by_cases hk : k2 = k
      · rw [if_pos hk] at h
        injection h with h
        subst hk; subst h
        exact List.mem_cons_self _ _
      · rw [if_neg hk] at h; cases h
    · rw [hrest] at h
      injection h with h
      subst h
      exact List.mem_cons_of_mem _ (ih hrest)

theorem objLast_elemOk (elemOk : Json → Bool) (j : Json) (k : String) (w : Json)
    (hok : mapJsonOk elemOk j = true) (hl : objLast j k = some w) : elemOk w = true := by
  cases j with
  | obj fs =>
    have hmem := lastVal_mem fs k w hl
    simp only [mapJsonOk, List.all_eq_true] at hok
    exact hok (k, w) hmem
  | null => cases hl
  | bool b => cases hl
  | num n => cases hl
  | str s => cases hl
  | arr xs => cases hl

theorem hasKeyJ_eq_isSome (fs : List (String × Json)) (k : String) :
    hasKeyJ fs k = (lastVal fs k).isSome := by
  induction fs with
  | nil => rfl
  | cons kv rest ih =>
    obtain ⟨k2, v⟩ := kv
    simp only [hasKeyJ, lastVal]
    rcases hrest : lastVal rest k with _ | w
    · rw [hrest] at ih
      by_cases hk : k2 = k
      · simp [hk]
      · simp [hk, ih]
    · rw [hrest] at ih
      simp [ih]

theorem isOkE_ok {e a : Type} (x : a) : isOkE (Except.ok x : Except e a) = true := rfl

theorem isOkE_error {e a : Type} (x : e) : isOkE (Except.error x : Except e a) = false := rfl

theorem isOkE_statusFields (fs : List (String × Json)) (st : Status) :
    isOkE (statusFields fs st) = fs.all (fun kv => statusFieldOk kv.1 kv.2) := by
  induction fs generalizing st with
  | nil => rfl
  | cons kv rest ih =>
    obtain ⟨k, v⟩ := kv
    rw [show (((k, v) :: rest).all fun kv => statusFieldOk kv.1 kv.2)
        = (statusFieldOk k v && rest.all fun kv => statusFieldOk kv.1 kv.2) from rfl]
    simp only [statusFields]
    by_cases h1 : keyMatch k "message" = true
    · have hf : statusFieldOk k v = jsonStrOrNull v := by
        simp only [statusFieldOk]; rw [if_pos h1]
      rw [if_pos h1, hf]
      cases v <;> simp [decodeStringV, jsonStrOrNull, ih, isOkE_error]
    · rw [if_neg h1]
      by_cases h2 : keyMatch k "emoji" = true
      · have hf : statusFieldOk k v = jsonStrOrNull v := by
          simp only [statusFieldOk]; rw [if_neg h1, if_pos h2]
        rw [if_pos h2, hf]
        cases v <;> simp [decodeStringV, jsonStrOrNull, ih, isOkE_error]
      · rw [if_neg h2]
        by_cases h3 : keyMatch k "indicatesLimitedAvailability" = true
        · have hf : statusFieldOk k v = jsonBoolOrNull v := by
            simp only [statusFieldOk]; rw [if_neg h1, if_neg h2, if_pos h3]
          rw [if_pos h3, hf]
          cases v <;> simp [decodeBoolV, jsonBoolOrNull, ih, isOkE_error]
        · have hf : statusFieldOk k v = true := by
            simp only [statusFieldOk]; rw [if_neg h1, if_neg h2, if_neg h3]
          rw [if_neg h3, hf]
          simp [ih]

theorem isOkE_decodeStatusV (v : Json) (cur : Status) :
    isOkE (decodeStatusV v cur) = statusJsonOk v := by
  cases v <;>
    simp [decodeStatusV, statusJsonOk, isOkE_ok, isOkE_error, isOkE_statusFields]

theorem isOkE_mapFieldsWith {α : Type} (dec : Json → Except Unit α) (elemOk : Json → Bool)
    (H : ∀ v, isOkE (dec v) = elemOk v) (fs : List (String × Json)) (acc : List (String × α)) :
    isOkE (mapFieldsWith dec fs acc) = fs.all (fun kv => elemOk kv.2) := by
  induction fs generalizing acc with
  | nil => rfl
  | cons kv rest ih =>
    obtain ⟨k, v⟩ := kv
    simp only [mapFieldsWith, List.all_cons]
    rcases hd : dec v with e | a
    · have hv : elemOk v = false := by rw [← H v, hd]; rfl
      simp [hv, isOkE_error]
    · have hv : elemOk v = true := by rw [← H v, hd]; rfl
      simp [hv, ih]

theorem isOkE_decodeMapWith {α : Type} (dec : Json → Except Unit α) (elemOk : Json → Bool)
    (H : ∀ v, isOkE (dec v) = elemOk v) (j : Json) :
    isOkE (decodeMapWith dec j) = mapJsonOk elemOk j := by
  cases j <;>
    simp [decodeMapWith, mapJsonOk, isOkE_ok, isOkE_error, isOkE_mapFieldsWith dec elemOk H]

theorem isOkE_decodeMap1 (j : Json) : isOkE (decodeMap1 j) = map1Ok j :=
  isOkE_decodeMapWith _ _ (fun v => isOkE_decodeStatusV v zeroStatus) j

theorem isOkE_decodeMap2 (j : Json) : isOkE (decodeMap2 j) = map2Ok j :=
  isOkE_decodeMapWith _ _ isOkE_decodeMap1 j

theorem isOkE_decodeMap3 (j : Json) : isOkE (decodeMap3 j) = map3Ok j :=
  isOkE_decodeMapWith _ _ isOkE_decodeMap2 j

theorem lookupGo_decodeMapWith {α : Type} (dec : Json → Except Unit α) (j : Json)
    (m : List (String × α)) (hdec : decodeMapWith dec j = .ok m) (k : String) :
    lookupGo m k = (match objLast j k with
      | some w => exOpt (dec w)
      | none => none) := by
  cases j with
  | null =>
    injection hdec with h
    subst h
    rfl
  | obj fs =>
    have := lookupGo_mapFieldsWith dec fs [] m hdec k
    rw [this]
    simp only [objLast]
    rcases lastVal fs k with _ | w <;> rfl
  | bool b => cases hdec
  | num n => cases hdec
  | str s => cases hdec
  | arr xs => cases hdec

theorem apiStatusDecode_no_ghFailed (out : Option Json) (key : String) (s : String) :
    apiStatusDecode out key ≠ .error (.ghFailed s) := by
  rcases out with _ | j
  · simp [apiStatusDecode]
  · simp only [apiStatusDecode]
    split
    · simp
    · split
      · simp
      · split
        · simp
        · split
          · simp
          · simp

theorem lookupGo_decoded {α : Type} (dec : Json → Except Unit α) (elemOk : Json → Bool)
    (H : ∀ v, isOkE (dec v) = elemOk v)
    (j : Json) (m : List (String × α)) (hdec : decodeMapWith dec j = .ok m)
    (hok : mapJsonOk elemOk j = true) (k : String) :
    (∀ a, lookupGo m k = some a →
      ∃ w, objLast j k = some w ∧ dec w = .ok a ∧ elemOk w = true)
    ∧ (lookupGo m k = none → objLast j k = none) := by
  have hl := lookupGo_decodeMapWith dec j m hdec k
  rcases hw : objLast j k with _ | w
  · rw [hw] at hl
    simp only at hl
    constructor
    · intro a h
      rw [hl] at h
      cases h
    · intro _
      rfl
  · rw [hw] at hl
    have helem : elemOk w = true := objLast_elemOk elemOk j k w hok hw
    rcases hdw : dec w with e | a
    · exfalso
      have h := H w
      rw [hdw, helem] at h
      simp [isOkE_error] at h
    · simp only [hdw, exOpt] at hl
      constructor
      · intro a2 h
        rw [hl] at h
        injection h with h
        subst h
        exact ⟨w, rfl, hdw, helem⟩
      · intro h
        rw [hl] at h
        cases h

theorem apiStatusDecode_ok_eq (j : Json) (key : String) :
    isOkE (apiStatusDecode (some j) key) = (map3Ok j && statusPathPresent j key) := by
  simp only [apiStatusDecode]
  split
  next e heq =>
    have h3 : map3Ok j = false := by
      have h := isOkE_decodeMap3 j
      rw [heq] at h
      exact h.symm
    rw [h3]
    simp [isOkE_error]
  next m heq =>
    have h3 : map3Ok j = true := by
      have h := isOkE_decodeMap3 j
      rw [heq] at h
      exact h.symm
    rw [h3, Bool.true_and]
    have step1 := lookupGo_decoded decodeMap2 map2Ok isOkE_decodeMap2 j m heq h3 "data"
    split
    next hn =>
      have hdata := step1.2 hn
      simp [statusPathPresent, hdata, isOkE_error]
    next m2 hs =>
      obtain ⟨d, hdata, hdec2, hd_ok⟩ := step1.1 m2 hs
      have step2 := lookupGo_decoded decodeMap1 map1Ok isOkE_decodeMap1 d m2 hdec2 hd_ok key
      split
      next hn2 =>
        have hdkey := step2.2 hn2
        simp [statusPathPresent, hdata, hdkey, isOkE_error]
      next m3 hs2 =>
        obtain ⟨t, hdkey, hdec1, ht_ok⟩ := step2.1 m3 hs2
        have step3 := lookupGo_decoded (fun v => decodeStatusV v zeroStatus) statusJsonOk
            (fun v => isOkE_decodeStatusV v zeroStatus) t m3 hdec1 ht_ok "status"
        split
        next hn3 =>
          have hst := step3.2 hn3
          cases t with
          | obj fs =>
            have hfs : lastVal fs "status" = none := hst
            simp [statusPathPresent, hdata, hdkey, hasKeyJ_eq_isSome, hfs, isOkE_error]
          | null => simp [statusPathPresent, hdata, hdkey, isOkE_error]
          | bool b => simp [statusPathPresent, hdata, hdkey, isOkE_error]
          | num n => simp [statusPathPresent, hdata, hdkey, isOkE_error]
          | str s => simp [statusPathPresent, hdata, hdkey, isOkE_error]
          | arr xs => simp [statusPathPresent, hdata, hdkey, isOkE_error]
        next s hs3 =>
          obtain ⟨w, hst, hdw, hw_ok⟩ := step3.1 s hs3
          cases t with
          | obj fs =>
            have hfs : lastVal fs "status" = some w := hst
            simp [statusPathPresent, hdata, hdkey, hasKeyJ_eq_isSome, hfs, isOkE_ok]
          | null => exact absurd hst (by simp [objLast])
          | bool b => exact absurd hst (by simp [objLast])
          | num n => exact absurd hst (by simp [objLast])
          | str s2 => exact absurd hst (by simp [objLast])
          | arr xs => exact absurd hst (by simp [objLast])

/-! ### Claim theorems -/

/-- C3: `runGet` routes every login containing the separator character
"/" to the team-roster lookup and every other login to the single-user
lookup. -/
theorem runGet_routing (login : String) :
    (runGetRoute login = .team ↔ '/' ∈ login.data)
    ∧ (runGetRoute login = .user ↔ '/' ∉ login.data) := by
  have hc : goContains login '/' = true ↔ '/' ∈ login.data := by
    simp [goContains]
  by_cases hm : '/' ∈ login.data
  · have h : goContains login '/' = true := hc.mpr hm
    simp [runGetRoute, h, hm]
  · have h : goContains login '/' = false := by
      rcases Bool.eq_false_or_eq_true (goContains login '/') with h | h
      · exact absurd (hc.mp h) hm
      · exact h
    simp [runGetRoute, h, hm]

/-- C4: with an empty login `apiStatus` uses the viewer-shaped query
(which contains no login filter) and decodes under the "viewer" key;
with a non-empty login it uses the `user(login:"...")` shape containing
the login as a filter and decodes under the "user" key. -/
theorem apiStatus_query_shapes (login : String) :
    (login = "" →
      apiStatusQuery login = viewerQueryShape
      ∧ apiStatusKey login = "viewer"
      ∧ strContains (apiStatusQuery login) "login" = false)
    ∧ (login ≠ "" →
      apiStatusKey login = "user"
      ∧ ∃ a b, apiStatusQuery login = a ++ ("user(login:\"" ++ login ++ "\")") ++ b) := by
  constructor
  · intro h
    subst h
    refine ⟨rfl, rfl, ?_⟩
    decide
  · intro h
    refine ⟨by simp [apiStatusKey, h], "query \x7b ",
      " \x7b status \x7b indicatesLimitedAvailability message emoji \x7d\x7d\x7d", ?_⟩
    rw [apiStatusQuery, if_neg h]
    rw [show uqA = "query \x7b " ++ "user(login:\"" from rfl]
    rw [show uqB = "\")" ++ " \x7b status \x7b indicatesLimitedAvailability message emoji \x7d\x7d\x7d" from rfl]
    simp only [String.append_assoc]

/-- Witness for C4 at the concrete logins "" and "octocat". -/
theorem apiStatus_query_shapes_witness :
    (apiStatusQuery "" = viewerQueryShape ∧ apiStatusKey "" = "viewer"
      ∧ strContains (apiStatusQuery "") "login" = false)
    ∧ (apiStatusKey "octocat" = "user"
      ∧ ∃ a b, apiStatusQuery "octocat" = a ++ ("user(login:\"" ++ "octocat" ++ "\")") ++ b) :=
  ⟨(apiStatus_query_shapes "").1 rfl, (apiStatus_query_shapes "octocat").2 (by decide)⟩

/-- C5: the mutation's `emoji` variable is the request's alias wrapped in
colons when the alias is non-empty, and the empty string when the alias
is empty; argument 7 of the `gh` argument vector carries it. -/
theorem runSet_emoji_wrapping (opts : SetOptions) (fmt : String → Int → String) (now : Int) :
    (opts.emoji ≠ "" →
      setEmojiField opts.emoji = ":" ++ opts.emoji ++ ":"
      ∧ (setCmdArgs opts fmt now)[7]? = some ("emoji=" ++ (":" ++ opts.emoji ++ ":")))
    ∧ (opts.emoji = "" →
      setEmojiField opts.emoji = ""
      ∧ (setCmdArgs opts fmt now)[7]? = some "emoji=") := by
  have h7 : (setCmdArgs opts fmt now)[7]? = some ("emoji=" ++ setEmojiField opts.emoji) := rfl
  constructor
  · intro h
    have he : setEmojiField opts.emoji = ":" ++ opts.emoji ++ ":" := by
      rw [setEmojiField, if_pos h]
    exact ⟨he, by rw [h7, he]⟩
  · intro h
    have he : setEmojiField opts.emoji = "" := by
      rw [setEmojiField, if_neg (by simp [h])]
    refine ⟨he, ?_⟩
    rw [h7, he]
    rfl

/-- Witness for C5: alias "rocket" yields ":rocket:", the empty alias
yields the empty string. -/
theorem runSet_emoji_wrapping_witness :
    (setEmojiField "rocket" = ":rocket:"
      ∧ (setCmdArgs opts1 fmt1 0)[7]? = some "emoji=:rocket:")
    ∧ (setEmojiField "" = ""
      ∧ (setCmdArgs ⟨"", false, 0, "", ""⟩ fmt1 0)[7]? = some "emoji=") := by
  have h1 := (runSet_emoji_wrapping opts1 fmt1 0).1 (by decide)
  have h2 := (runSet_emoji_wrapping ⟨"", false, 0, "", ""⟩ fmt1 0).2 rfl
  exact ⟨⟨h1.1, h1.2⟩, ⟨h2.1, h2.2⟩⟩

/-- C6: the mutation's `expiry` variable is the literal "null" whenever
the request's duration is not positive, and the formatted absolute time
`now + duration` (layout "2006-01-02T15:04:05-0700") whenever the
duration is strictly positive; argument 9 of the `gh` argument vector
carries it. -/
theorem runSet_expiry_serialization (opts : SetOptions) (fmt : String → Int → String) (now : Int) :
    (opts.expiry ≤ 0 →
      expiryField fmt now opts.expiry = "null"
      ∧ (setCmdArgs opts fmt now)[11]? = some "expiry=null")
    ∧ (0 < opts.expiry →
      expiryField fmt now opts.expiry = fmt timeLayout (now + opts.expiry)
      ∧ (setCmdArgs opts fmt now)[11]? =
          some ("expiry=" ++ fmt timeLayout (now + opts.expiry))) := by
  have h9 : (setCmdArgs opts fmt now)[11]? = some ("expiry=" ++ expiryField fmt now opts.expiry) := rfl
  constructor
  · intro h
    have he : expiryField fmt now opts.expiry = "null" := by
      rw [expiryField, if_neg (by omega)]
    refine ⟨he, ?_⟩
    rw [h9, he]
    rfl
  · intro h
    have he : expiryField fmt now opts.expiry = fmt timeLayout (now + opts.expiry) := by
      rw [expiryField, if_pos (by omega)]
    refine ⟨he, ?_⟩
    rw [h9, he]

/-- Witness for C6 at durations 0 and 1800000000000 (30 minutes in
nanoseconds). -/
theorem runSet_expiry_serialization_witness :
    (expiryField fmt1 5 0 = "null"
      ∧ (setCmdArgs ⟨"hi", false, 0, "rocket", ""⟩ fmt1 5)[11]? = some "expiry=null")
    ∧ (expiryField fmt1 5 1800000000000 = fmt1 timeLayout (5 + 1800000000000)) := by
  have h1 := (runSet_expiry_serialization ⟨"hi", false, 0, "rocket", ""⟩ fmt1 5).1 (by decide)
  have h2 := (runSet_expiry_serialization ⟨"hi", false, 1800000000000, "rocket", ""⟩ fmt1 5).2 (by decide)
  exact ⟨⟨h1.1, h1.2⟩, h2.1⟩

/-- C1: when the first invocation fails with the missing-scope stderr
marker, `runSet` is not fatal: a declined confirmation returns the
non-error "no change" outcome after the single invocation; an accepted
confirmation runs `gh auth refresh -s user` and retries the original
argument vector exactly once, and a failure of that single retry is
propagated as an error (the trace shows exactly two invocations, so
there is no further retry). -/
theorem runSet_scope_recovery (opts : SetOptions) (fmt : String → Int → String) (now : Int)
    (gh : Nat → List String → GhCall) (confirm : Except Unit Bool) (refresh : List String → Bool)
    (hfail : (gh 0 (setCmdArgs opts fmt now)).ok = false)
    (hscope : strContains (gh 0 (setCmdArgs opts fmt now)).stderr scopeMarker = true) :
    (confirm = .ok false →
      runSet opts fmt now gh confirm refresh =
        ⟨[setCmdArgs opts fmt now], [], .ok .declined⟩)
    ∧ (confirm = .ok true → refresh refreshCmdArgs = true →
      (runSet opts fmt now gh confirm refresh).ghArgs
          = [setCmdArgs opts fmt now, setCmdArgs opts fmt now]
      ∧ (runSet opts fmt now gh confirm refresh).refreshArgs = [refreshCmdArgs]
      ∧ ((gh 1 (setCmdArgs opts fmt now)).ok = false →
        (runSet opts fmt now gh confirm refresh).result
            = .error (.ghFailed (gh 1 (setCmdArgs opts fmt now)).stderr))) := by
  constructor
  · intro hc
    rw [runSet.eq_def]
    simp only [hfail, hscope, hc]
    simp
  · intro hc hrf
    subst hc
    rcases Bool.eq_false_or_eq_true ((gh 1 (setCmdArgs opts fmt now)).ok) with h2 | h2
    · have hr : runSet opts fmt now gh (.ok true) refresh =
          ⟨[setCmdArgs opts fmt now, setCmdArgs opts fmt now], [refreshCmdArgs],
           finishSet (setEmojiField opts.emoji) (gh 1 (setCmdArgs opts fmt now)).out⟩ := by
        rw [runSet.eq_def]
        simp only [hfail, hscope, hrf, h2]
        simp
      rw [hr]
      refine ⟨rfl, rfl, fun hcon => ?_⟩
      rw [h2] at hcon
      cases hcon
    · have hr : runSet opts fmt now gh (.ok true) refresh =
          ⟨[setCmdArgs opts fmt now, setCmdArgs opts fmt now], [refreshCmdArgs],
           .error (.ghFailed (gh 1 (setCmdArgs opts fmt now)).stderr)⟩ := by
        rw [runSet.eq_def]
        simp only [hfail, hscope, hrf, h2]
        simp
      rw [hr]
      exact ⟨rfl, rfl, fun _ => rfl⟩

/-- Witness for C1: a concrete oracle failing with the scope marker on
the first call and an unrelated error on the retry, with the
confirmation accepted. -/
theorem runSet_scope_recovery_witness :
    (ghScope 0 (setCmdArgs opts1 fmt1 0)).ok = false
    ∧ strContains (ghScope 0 (setCmdArgs opts1 fmt1 0)).stderr scopeMarker = true
    ∧ (runSet opts1 fmt1 0 ghScope (.ok true) (fun _ => true)).ghArgs
        = [setCmdArgs opts1 fmt1 0, setCmdArgs opts1 fmt1 0]
    ∧ (runSet opts1 fmt1 0 ghScope (.ok true) (fun _ => true)).result
        = .error (.ghFailed "gh: second failure") := by
  have h := (runSet_scope_recovery opts1 fmt1 0 ghScope (.ok true) (fun _ => true)
    rfl rfl).2 rfl rfl
  exact ⟨rfl, rfl, h.1, h.2.2 rfl⟩

/-- C2: when the subprocess call of `runSet` succeeds and the response
decodes, a decoded emoji different from the one sent makes the operation
fail with the verification error, and an equal echoed emoji makes it
succeed. -/
theorem runSet_verifies_echoed_emoji (opts : SetOptions) (fmt : String → Int → String)
    (now : Int) (gh : Nat → List String → GhCall) (confirm : Except Unit Bool)
    (refresh : List String → Bool) (st : Status)
    (hok : (gh 0 (setCmdArgs opts fmt now)).ok = true)
    (hdec : decodeSetResponse (gh 0 (setCmdArgs opts fmt now)).out = .ok st) :
    (st.emoji ≠ setEmojiField opts.emoji →
      (runSet opts fmt now gh confirm refresh).result = .error .verifyFailed)
    ∧ (st.emoji = setEmojiField opts.emoji →
      (runSet opts fmt now gh confirm refresh).result = .ok .statusSet) := by
  have hr : runSet opts fmt now gh confirm refresh =
      ⟨[setCmdArgs opts fmt now], [],
       finishSet (setEmojiField opts.emoji) (gh 0 (setCmdArgs opts fmt now)).out⟩ := by
    rw [runSet.eq_def]
    simp only [hok]
    simp
  constructor
  · intro hne
    rw [hr]
    simp only [finishSet, hdec]
    simp [hne]
  · intro heq
    rw [hr]
    simp only [finishSet, hdec]
    simp [heq]

/-- Witness for C2: a mutation sending ":rocket:"; one oracle echoes
":rocket:" back (success), another echoes ":tada:" (verification
failure). -/
theorem runSet_verifies_echoed_emoji_witness :
    (runSet opts1 fmt1 0 ghEcho (.ok true) (fun _ => true)).result = .ok .statusSet
    ∧ (runSet opts1 fmt1 0 ghEchoWrong (.ok true) (fun _ => true)).result
        = .error .verifyFailed := by
  have h1 := (runSet_verifies_echoed_emoji opts1 fmt1 0 ghEcho (.ok true) (fun _ => true)
    ⟨false, "hi", ":rocket:"⟩ rfl rfl).2 rfl
  have h2 := (runSet_verifies_echoed_emoji opts1 fmt1 0 ghEchoWrong (.ok true) (fun _ => true)
    ⟨false, "hi", ":tada:"⟩ rfl rfl).1 (by decide)
  exact ⟨h1, h2⟩

/-- C8: `apiTeam` performs exactly one subprocess invocation whose query
requests the fixed page size (`memberStatuses(first: 100)`), with no
cursor following; in particular a response carrying exactly 100 member
nodes is returned in full after that single invocation, with no attempt
at a second fetch. -/
theorem apiTeam_single_page (login slug : String) (gh : List String → GhCall) :
    (apiTeam login slug gh).calls =
      [["api", "graphql", "-f", "query=" ++ apiTeamQuery (apiTeamLogin login) slug]]
    ∧ (apiTeam login slug gh).calls.length = 1
    ∧ (∃ pre post, apiTeamQuery (apiTeamLogin login) slug =
        pre ++ "memberStatuses(first: 100)" ++ post)
    ∧ (apiTeam "octo" "devs" gh100).calls.length = 1
    ∧ (apiTeam "octo" "devs" gh100).result =
        .ok (List.replicate 100 ⟨false, "m", ":x:", ⟨"u"⟩⟩) := by
  refine ⟨rfl, rfl, ?_, rfl, ?_⟩
  · refine ⟨tqA ++ apiTeamLogin login ++ tqB ++ slug ++ "\") \x7b\n          ",
      " \x7b\n            nodes \x7b indicatesLimitedAvailability message emoji user \x7b login \x7d \x7d\n          \x7d\n        \x7d\n      \x7d\n    \x7d", ?_⟩
    rw [apiTeamQuery]
    rw [show tqC = "\") \x7b\n          " ++ "memberStatuses(first: 100)"
        ++ " \x7b\n            nodes \x7b indicatesLimitedAvailability message emoji user \x7b login \x7d \x7d\n          \x7d\n        \x7d\n      \x7d\n    \x7d" from rfl]
    simp only [String.append_assoc]
  · have hnodes : decodeTeamResponse (some team100Json)
        = .ok (List.replicate 100 ⟨false, "m", ":x:", ⟨"u"⟩⟩) := by
      have hmem : decodeMemberV memberJson zeroMember
          = .ok (⟨false, "m", ":x:", ⟨"u"⟩⟩ : MemberStatus) := rfl
      have harr : (List.replicate 100 memberJson).mapM
          (fun v => decodeMemberV v zeroMember)
          = .ok (List.replicate 100 (⟨false, "m", ":x:", ⟨"u"⟩⟩ : MemberStatus)) := by
        have hgen : ∀ n : Nat, (List.replicate n memberJson).mapM
            (fun v => decodeMemberV v zeroMember)
            = .ok (List.replicate n (⟨false, "m", ":x:", ⟨"u"⟩⟩ : MemberStatus)) := by
          intro n
          induction n with
          | zero => rfl
          | succ k ih =>
            simp only [List.replicate_succ, List.mapM_cons, hmem, ih]
            rfl
        exact hgen 100
      simp only [decodeTeamResponse, team100Json]
      simp only [decodeWrapV, wrapFields, decodeNodesV]
      rw [show keyMatch "data" "data" = true from rfl]
      simp only [if_pos]
      rw [show keyMatch "organization" "organization" = true from rfl]
      simp only [if_pos]
      rw [show keyMatch "team" "team" = true from rfl]
      simp only [if_pos]
      rw [show keyMatch "memberStatuses" "memberStatuses" = true from rfl]
      simp only [if_pos]
      rw [show keyMatch "nodes" "nodes" = true from rfl]
      simp only [if_pos]
      rw [harr]
    simp only [apiTeam, apiTeamOutcome, gh100]
    rw [hnodes]
    simp

/-- C9: a single-user response whose `status` key is present with a JSON
null value decodes to the zero-value status (no error), while a response
whose `status` key is absent produces the missing-key decode error. -/
theorem apiStatus_null_vs_missing (login : String) :
    apiStatusDecode
        (some (.obj [("data", .obj [(apiStatusKey login, .obj [("status", .null)])])]))
        (apiStatusKey login) = .ok zeroStatus
    ∧ apiStatusDecode
        (some (.obj [("data", .obj [(apiStatusKey login, .obj [])])]))
        (apiStatusKey login) = .error .missingStatusKey := by
  generalize apiStatusKey login = k
  constructor
  · simp [apiStatusDecode, decodeMap3, decodeMap2, decodeMap1, decodeMapWith,
      mapFieldsWith, mapSet, decodeStatusV, lookupGo]
  · simp [apiStatusDecode, decodeMap3, decodeMap2, decodeMap1, decodeMapWith,
      mapFieldsWith, mapSet, decodeStatusV, lookupGo]

/-- C10: for a login with several "/" separators the team path takes the
first segment as the organization and the second as the team slug,
ignoring the rest; a login beginning with "/" yields an empty
organization, which `apiTeam` replaces with the "\x7bowner\x7d"
placeholder. -/
theorem runGetTeam_segments :
    (∀ a b r : String, '/' ∉ a.data → '/' ∉ b.data →
      runGetTeamParse (a ++ "/" ++ b ++ "/" ++ r) = (a, b))
    ∧ (∀ r : String, (runGetTeamParse ("/" ++ r)).1 = ""
        ∧ apiTeamLogin (runGetTeamParse ("/" ++ r)).1 = "\x7bowner\x7d") := by
  constructor
  · intro a b r ha hb
    have hdata : (a ++ "/" ++ b ++ "/" ++ r).data
        = a.data ++ '/' :: (b.data ++ '/' :: r.data) := by
      simp [String.data_append, List.append_assoc]
    rw [runGetTeamParse, goSplit, hdata, splitChar_append '/' a.data _ ha,
      splitChar_append '/' b.data _ hb]
    simp [mk_data]
  · intro r
    have hdata : ("/" ++ r).data = '/' :: r.data := by
      simp [String.data_append]
    have h1 : (runGetTeamParse ("/" ++ r)).1 = "" := by
      rw [runGetTeamParse, goSplit, hdata]
      simp [splitChar]
    exact ⟨h1, by rw [h1]; rfl⟩

/-- Witness for C10 at the logins "a/b/c" and "/x". -/
theorem runGetTeam_segments_witness :
    runGetTeamParse "a/b/c" = ("a", "b")
    ∧ (runGetTeamParse "/x").1 = ""
    ∧ apiTeamLogin (runGetTeamParse "/x").1 = "\x7bowner\x7d" := by
  have h1 := runGetTeam_segments.1 "a" "b" "c" (by decide) (by decide)
  have h2 := runGetTeam_segments.2 "x"
  exact ⟨h1, h2.1, h2.2⟩

theorem isDecodeErr_apiStatusDecode (out : Option Json) (key : String) :
    isDecodeErr (apiStatusDecode out key) = !(isOkE (apiStatusDecode out key)) := by
  rcases h : apiStatusDecode out key with e | s
  · cases e with
    | ghFailed s2 => exact absurd h (apiStatusDecode_no_ghFailed out key s2)
    | unmarshalFailed => rfl
    | missingStatusKey => rfl
  · rfl

/-- C7 counterexample: a response that is valid JSON and has the nested
path data -> user -> status structurally present, on which `apiStatus`
nevertheless fails with a decode error (the status value is an
ill-typed JSON string). -/
theorem apiStatus_decode_counterexample :
    statusPathPresent illTypedStatusJson (apiStatusKey "octocat") = true
    ∧ apiStatus "octocat" ghIll = .error .unmarshalFailed := ⟨rfl, rfl⟩

/-- C7 (amended): assuming the subprocess call succeeds, `apiStatus`
fails — necessarily with a decode error — exactly when the stdout is
not valid JSON, or some value in the envelope does not have the JSON
type the nested-map decode expects, or the nested path
data -> (viewer|user) -> status is structurally absent; in particular
absence of the path always yields the decode error and never a silently
defaulted status. -/
theorem apiStatus_decode_error_characterization (login : String) (gh : List String → GhCall)
    (hok : (gh ["api", "graphql", "-f", "query=" ++ apiStatusQuery login]).ok = true) :
    ((gh ["api", "graphql", "-f", "query=" ++ apiStatusQuery login]).out = none →
      apiStatus login gh = .error .unmarshalFailed)
    ∧ (∀ j, (gh ["api", "graphql", "-f", "query=" ++ apiStatusQuery login]).out = some j →
      isDecodeErr (apiStatus login gh)
        = !(map3Ok j && statusPathPresent j (apiStatusKey login))) := by
  have happ : apiStatus login gh =
      apiStatusDecode (gh ["api", "graphql", "-f", "query=" ++ apiStatusQuery login]).out
        (apiStatusKey login) := by
    rw [apiStatus.eq_def]
    simp [hok]
  constructor
  · intro h
    rw [happ, h]
    rfl
  · intro j hj
    rw [happ, hj, isDecodeErr_apiStatusDecode, apiStatusDecode_ok_eq]

/-- Witness for C7 (amended) at the login "octocat" and a well-formed
response. -/
theorem apiStatus_decode_error_characterization_witness :
    (ghUserOk ["api", "graphql", "-f", "query=" ++ apiStatusQuery "octocat"]).ok = true
    ∧ isDecodeErr (apiStatus "octocat" ghUserOk)
        = !(map3Ok userOkJson && statusPathPresent userOkJson (apiStatusKey "octocat")) := by
  have h := (apiStatus_decode_error_characterization "octocat" ghUserOk rfl).2 userOkJson rfl
  exact ⟨rfl, h⟩

/-- Witness for C3 at the logins "octo/devs" and "octocat". -/
theorem runGet_routing_witness :
    runGetRoute "octo/devs" = .team ∧ runGetRoute "octocat" = .user := by
  exact ⟨(runGet_routing "octo/devs").1.mpr (by decide),
    (runGet_routing "octocat").2.mpr (by decide)⟩

/-- Witness for C8 at the org "octo" and team "devs" with the
100-member response. -/
theorem apiTeam_single_page_witness :
    (apiTeam "octo" "devs" gh100).calls.length = 1
    ∧ (apiTeam "octo" "devs" gh100).result =
        .ok (List.replicate 100 ⟨false, "m", ":x:", ⟨"u"⟩⟩) := by
  have h := apiTeam_single_page "octo" "devs" gh100
  exact ⟨h.2.2.2.1, h.2.2.2.2⟩

/-- Witness for C9 at the login "octocat". -/
theorem apiStatus_null_vs_missing_witness :
    apiStatusDecode
        (some (.obj [("data", .obj [(apiStatusKey "octocat", .obj [("status", .null)])])]))
        (apiStatusKey "octocat") = .ok zeroStatus
    ∧ apiStatusDecode
        (some (.obj [("data", .obj [(apiStatusKey "octocat", .obj [])])]))
        (apiStatusKey "octocat") = .error .missingStatusKey :=
  apiStatus_null_vs_missing "octocat"
